import Mathlib

/-!
Verification development for the CSV data-cleaner pipeline
(`src/data_cleaner.py`, class `CleanerCSV`).

The cleaning pipeline is shallowly embedded: the pandas DataFrame becomes an
explicit table value (`DataFrame`), the loaded JSON specification becomes a
record of optional fields (`Config`, a missing key is `none`, matching
Python's `dict.get(key)` returning `None`), the instance state
(`self.df`, `self.df_changed`, the logger) becomes `CState`, and each
cleaning method becomes a function `Config → CState → StageRes` where an
uncaught Python exception is modelled as `Except.error` carrying the state
at the moment of the raise.  External library behaviour (pandas cell
coercions, `strptime`-style datetime parsing) is modelled cell-wise and is
noted at each definition.
-/

namespace CSVClean

/-- Severity of an audit message (only the level is observable in the model). -/
inductive LogLevel where
  | info
  | warning
  | error
deriving DecidableEq

/-- A table cell.  Cells are loosely typed until a stage coerces them;
`na` is the missing-value sentinel (pandas NaN/NaT). -/
inductive Cell where
  | na
  | str (s : String)
  | num (q : ℚ)
  | dt (t : Int)
deriving DecidableEq

/-- `true` exactly on the missing-value sentinel. -/
def Cell.isNA : Cell → Bool
  | .na => true
  | _ => false

/-- `true` exactly on numeric cells. -/
def Cell.isNum : Cell → Bool
  | .num _ => true
  | _ => false

/-- The in-memory table: named columns and rows of cells
(row `r` holds the cell of column `cols[i]` at position `i`). -/
structure DataFrame where
  cols : List String
  rows : List (List Cell)
deriving DecidableEq

/-- The loaded specification.  Each recognized key is optional: `none`
models a key absent from the JSON document, so that field access is exactly
Python's `self.cfg.get(key)` (which returns `None` when absent). -/
structure Config where
  input_file : Option String := none
  output_file : Option String := none
  delimiter_in : Option String := none
  delimiter_out : Option String := none
  input_file_profile : Option String := none
  output_file_profile : Option String := none
  summary_file : Option String := none
  drop_repeat_headers : Option Bool := none
  drop_duplicates : Option Bool := none
  drop_na : Option Bool := none
  clean_types : Option Bool := none
  export_output_file : Option Bool := none
  str_col : Option (List String) := none
  float_col : Option (List String) := none
  int_col : Option (List String) := none
  numeric_col : Option (List String) := none
  datetime_col : Option (List String) := none
  datetime_format : Option (List String) := none
  drop_col : Option (List String) := none
  quantile_ouliers_col : Option (List String) := none
deriving DecidableEq

/-- The mutable instance state threaded through the cleaning methods:
`self.df`, `self.df_changed` and the audit log. -/
structure CState where
  df : DataFrame
  df_changed : Bool
  log : List LogLevel
deriving DecidableEq

/-- Result of one cleaning method: either the updated state, or an uncaught
Python exception (message) together with the state at the raise. -/
def StageRes : Type := Except (String × CState) CState

instance instDecEqExcept {ε α : Type} [DecidableEq ε] [DecidableEq α] :
    DecidableEq (Except ε α) := fun a b =>
  match a, b with
  | .ok x, .ok y =>
    if h : x = y then .isTrue (h ▸ rfl)
    else .isFalse (fun hh => h (Except.ok.inj hh))
  | .error x, .error y =>
    if h : x = y then .isTrue (h ▸ rfl)
    else .isFalse (fun hh => h (Except.error.inj hh))
  | .ok _, .error _ => .isFalse (fun hh => Except.noConfusion hh)
  | .error _, .ok _ => .isFalse (fun hh => Except.noConfusion hh)

instance : DecidableEq StageRes := by
  unfold StageRes
  infer_instance

/-- The state carried by a stage result, whether it returned or raised. -/
def stateOf : StageRes → CState
  | .ok s => s
  | .error (_, s) => s

/-- Whether a stage returned without an uncaught exception. -/
def isOk : StageRes → Bool
  | .ok _ => true
  | .error _ => false

/-- Python truthiness of an optional boolean (`if self.cfg.get(key):`):
an absent key is `None`, which is falsy. -/
def truthyB : Option Bool → Bool
  | some b => b
  | none => false

/-- Python truthiness of an optional list (`if not cols:`): absent key
(`None`) and the empty list are both falsy. -/
def truthyL : Option (List String) → Bool
  | some l => !l.isEmpty
  | none => false

/-- Index of column `c` in a column-name list (first occurrence), `none`
when the name is absent — pandas raises `KeyError` on `df[c]` then. -/
def colFindIdx (cols : List String) (c : String) : Option Nat :=
  match cols with
  | [] => none
  | x :: xs => if x = c then some 0 else (colFindIdx xs c).map (· + 1)

/-- The cell of row `r` at column index `i` (rows are full-width, the
default is never reached on well-formed tables). -/
def cellIdx (r : List Cell) (i : Nat) : Cell :=
  r.getD i Cell.na

/-- The cells of column `c` in `df`, `none` when the column is absent. -/
def colCells (df : DataFrame) (c : String) : Option (List Cell) :=
  (colFindIdx df.cols c).map (fun i => df.rows.map (fun r => cellIdx r i))

/-- Replace every cell of column index `i` by `f` of the old cell
(models `self.df[col] = f(self.df[col])`). -/
def mapColAt (df : DataFrame) (i : Nat) (f : Cell → Cell) : DataFrame :=
  { df with rows := df.rows.map (fun r => r.set i (f (cellIdx r i))) }

/-- Overwrite column index `i` with the given cells, row by row
(models `self.df[col] = series`). -/
def setColAt (df : DataFrame) (i : Nat) (vals : List Cell) : DataFrame :=
  { df with rows := (df.rows.zip vals).map (fun p => p.1.set i p.2) }

/-! ### Cell-level models of the external coercions

`pd.to_numeric`, `Series.astype`, `pd.to_datetime` are pandas library
calls; they are modelled cell-wise below, faithful to the behaviour the
source relies on (success/failure and the missing-value sentinel; the
exact text produced by a string render is abstracted). -/

/-- Numeric value of a digit list (most significant first). -/
def digitsVal (ds : List Char) : Nat :=
  ds.foldl (fun a c => a * 10 + (c.toNat - 48)) 0

/-- Split a leading run of decimal digits off a character list. -/
def splitDigits : List Char → (List Char × List Char)
  | [] => ([], [])
  | c :: cs =>
    if c.isDigit then
      let p := splitDigits cs
      (c :: p.1, p.2)
    else ([], c :: cs)

/-- Modelled from Python `int(s)`: optional sign followed by at least one
digit, the whole string consumed (whitespace handling is not modelled). -/
def parseIntPy (s : String) : Option Int :=
  let go : List Char → Option Nat := fun cs =>
    match splitDigits cs with
    | ([], _) => none
    | (ds, []) => some (digitsVal ds)
    | (_, _ :: _) => none
  match s.data with
  | '-' :: rest => (go rest).map (fun n => -(n : Int))
  | '+' :: rest => (go rest).map (fun n => (n : Int))
  | cs => (go cs).map (fun n => (n : Int))

/-- Modelled from Python `float(s)`: optional sign, then digits with an
optional single decimal point (exponents and specials not modelled). -/
def parseRat (s : String) : Option ℚ :=
  let core : List Char → Option ℚ := fun cs =>
    let ip := splitDigits cs
    match ip.2 with
    | [] => if ip.1.isEmpty then none else some ((digitsVal ip.1 : ℚ))
    | '.' :: cs2 =>
      let fp := splitDigits cs2
      if fp.2.isEmpty && !(ip.1.isEmpty && fp.1.isEmpty) then
        some ((digitsVal ip.1 : ℚ) + (digitsVal fp.1 : ℚ) / ((10 : ℚ) ^ fp.1.length))
      else none
    | _ => none
  match s.data with
  | '-' :: rest => (core rest).map (fun q => -q)
  | '+' :: rest => (core rest).map (fun q => q)
  | cs => core cs

/-- Truncation of a rational toward zero (C-style cast to int). -/
def truncQ (q : ℚ) : Int :=
  q.num / (q.den : Int)

/-- Take at most `w` leading digits (at least one) and their value. -/
def takeDigitsUpto (w : Nat) (cs : List Char) : Option (Nat × List Char) :=
  let p := splitDigits cs
  match p.1.take w with
  | [] => none
  | ds => some (digitsVal ds, p.1.drop w ++ p.2)

/-- Modelled from the `strptime`-style parsing behind `pd.to_datetime`
with an explicit `format`: `%`-directives consume a bounded digit run
(4 digits for `%Y`, else 2), every other format character must match the
input literally, and both strings must be consumed exactly.  The result is
an abstract encoding of the parsed fields; a cell parses iff it matches
the format. -/
def strptimeGo : List Char → List Char → Nat → Option Nat
  | [], [], acc => some acc
  | [], _ :: _, _ => none
  | '%' :: d :: fs, cs, acc =>
    if d = '%' then
      match cs with
      | c :: cs2 => if c = '%' then strptimeGo fs cs2 acc else none
      | [] => none
    else
      match takeDigitsUpto (if d = 'Y' then 4 else 2) cs with
      | some (v, rest) => strptimeGo fs rest (acc * 10000 + v)
      | none => none
  | ['%'], _, _ => none
  | f :: fs, c :: cs, acc => if f = c then strptimeGo fs cs acc else none
  | _ :: _, [], _ => none

/-- Parse a string as a datetime using a `strptime`-style format. -/
def strptime (form s : String) : Option Int :=
  (strptimeGo form.data s.data 0).map Int.ofNat

/-- Modelled from `pd.to_numeric(series, errors="coerce")`: numbers kept,
parsable strings parsed, everything unparsable becomes missing. -/
def to_numericCell : Cell → Cell
  | .na => .na
  | .num q => .num q
  | .str s =>
    match parseRat s with
    | some q => .num q
    | none => .na
  | .dt t => .num (t : ℚ)

/-- Modelled from `pd.to_datetime(series, format=form, errors="coerce")`:
strings parsed against the format, unparsable cells become missing. -/
def to_datetimeCell (form : String) : Cell → Cell
  | .str s =>
    match strptime form s with
    | some t => .dt t
    | none => .na
  | .dt t => .dt t
  | .na => .na
  | .num _ => .na

/-- Modelled from `Series.astype(int)` elementwise: a non-integral string
or a missing value raises `ValueError` (pandas `IntCastingNaNError` is a
`ValueError`), floats truncate toward zero. -/
def castIntCell : Cell → Except Unit Cell
  | .str s =>
    match parseIntPy s with
    | some n => .ok (.num (n : ℚ))
    | none => .error ()
  | .num q => .ok (.num ((truncQ q : ℤ) : ℚ))
  | .na => .error ()
  | .dt t => .ok (.num (t : ℚ))

/-- Modelled from `Series.astype(float)` elementwise: an unparsable string
raises `ValueError`; missing values stay missing. -/
def castFloatCell : Cell → Except Unit Cell
  | .str s =>
    match parseRat s with
    | some q => .ok (.num q)
    | none => .error ()
  | .num q => .ok (.num q)
  | .na => .ok .na
  | .dt t => .ok (.num (t : ℚ))

/-- Modelled from `Series.astype(str)` elementwise: never raises; the
exact rendered text of non-string cells is abstracted. -/
def castStrCell : Cell → Except Unit Cell
  | .str s => .ok (.str s)
  | .num q => .ok (.str (toString q))
  | .na => .ok (.str "nan")
  | .dt t => .ok (.str (toString t))

/-- A whole-column `astype`: all-or-nothing, the first failing cell makes
the column conversion raise and the column assignment never happens. -/
def castColumn (f : Cell → Except Unit Cell) : List Cell → Except Unit (List Cell)
  | [] => .ok []
  | c :: cs =>
    match f c with
    | .error e => .error e
    | .ok v =>
      match castColumn f cs with
      | .error e => .error e
      | .ok vs => .ok (v :: vs)

/-! ### The cleaning stages (`CleanerCSV` methods) -/

/-- Does some cell of the row textually equal its own column's header name?
(`self.df.eq(self.df.columns).any(axis=1)`; only string cells can equal a
header name, NaN compares unequal to everything). -/
def rowHasHeaderCell (cols : List String) (r : List Cell) : Bool :=
  (cols.zip r).any (fun p =>
    match p.2 with
    | .str s => s = p.1
    | _ => false)

/-- `CleanerCSV.clean_headers`: when `drop_repeat_headers` is truthy, drop
every row containing a re-embedded header cell and set the mutation flag. -/
def clean_headers (cfg : Config) (st : CState) : StageRes :=
  if truthyB cfg.drop_repeat_headers then
    .ok { st with
          log := st.log ++ [.info],
          df_changed := true,
          df := { st.df with
                  rows := st.df.rows.filter
                    (fun r => !rowHasHeaderCell st.df.cols r) } }
  else .ok st

/-- `DataFrame.drop_duplicates(keep="last")`: remove rows equal to a later
row, keeping the last occurrence, preserving the order of kept rows. -/
def dropDupKeepLast (rows : List (List Cell)) : List (List Cell) :=
  rows.foldr (fun r acc => if acc.contains r then acc else r :: acc) []

/-- `CleanerCSV.clean_drop_dupplicates`: when `drop_duplicates` is truthy,
deduplicate rows keeping the last occurrence and set the mutation flag. -/
def clean_drop_dupplicates (cfg : Config) (st : CState) : StageRes :=
  if truthyB cfg.drop_duplicates then
    .ok { st with
          log := st.log ++ [.info],
          df_changed := true,
          df := { st.df with rows := dropDupKeepLast st.df.rows } }
  else .ok st

/-- The per-column loop of `clean_numeric_columns`: log, read the column
(`KeyError` when absent is uncaught), overwrite it with `to_numeric`. -/
def numericFold (st : CState) : List String → StageRes
  | [] => .ok st
  | c :: cs =>
    match colFindIdx st.df.cols c with
    | none => .error ("KeyError", { st with log := st.log ++ [.info] })
    | some i =>
      numericFold
        { st with log := st.log ++ [.info], df := mapColAt st.df i to_numericCell } cs

/-- `CleanerCSV.clean_numeric_columns`: gated on `clean_types`; sets the
mutation flag before the loop (even for an empty column list); iterating a
missing `numeric_col` key (`None`) raises `TypeError`. -/
def clean_numeric_columns (cfg : Config) (st : CState) : StageRes :=
  if !truthyB cfg.clean_types then .ok st
  else
    match cfg.numeric_col with
    | none => .error ("TypeError", { st with df_changed := true })
    | some cols => numericFold { st with df_changed := true } cols

/-- The column list chosen by the `match type_str` of
`run_astype_conversion`; outer `none` is the wildcard branch (`return`). -/
def colsChoiceOf (cfg : Config) (tstr : String) : Option (Option (List String)) :=
  if tstr = "int" then some cfg.int_col
  else if tstr = "float" then some cfg.float_col
  else if tstr = "str" then some cfg.str_col
  else none

/-- The cell conversion of `type_map` for a type-category string. -/
def castCellOf (tstr : String) : Cell → Except Unit Cell :=
  if tstr = "int" then castIntCell
  else if tstr = "float" then castFloatCell
  else castStrCell

/-- The per-column loop of `run_astype_conversion`: log, read the column
(`KeyError` uncaught), try the cast; on `ValueError` log an error and
leave the column unchanged, continuing with the remaining columns. -/
def astypeFold (f : Cell → Except Unit Cell) (st : CState) : List String → StageRes
  | [] => .ok st
  | c :: cs =>
    match colFindIdx st.df.cols c with
    | none => .error ("KeyError", { st with log := st.log ++ [.info] })
    | some i =>
      match castColumn f (st.df.rows.map (fun r => cellIdx r i)) with
      | .ok vals =>
        astypeFold f
          { st with log := st.log ++ [.info], df := setColAt st.df i vals } cs
      | .error _ =>
        astypeFold f { st with log := st.log ++ [.info, .error] } cs

/-- `CleanerCSV.run_astype_conversion(type_str)`: gated on `clean_types`;
unknown category strings and falsy column lists return unchanged; otherwise
the mutation flag is set and each listed column is cast in turn. -/
def run_astype_conversion (tstr : String) (cfg : Config) (st : CState) : StageRes :=
  if !truthyB cfg.clean_types then .ok st
  else
    match colsChoiceOf cfg tstr with
    | none => .ok st
    | some optCols =>
      if !truthyL optCols then .ok st
      else astypeFold (castCellOf tstr) { st with df_changed := true } (optCols.getD [])

/-- The per-pair loop of `clean_datetime_columns` over
`zip(cols, forms)`: log, read the column (`KeyError` uncaught), overwrite
with `to_datetime(..., errors="coerce")`. -/
def dtFold (st : CState) : List (String × String) → StageRes
  | [] => .ok st
  | (c, form) :: ps =>
    match colFindIdx st.df.cols c with
    | none => .error ("KeyError", { st with log := st.log ++ [.info] })
    | some i =>
      dtFold
        { st with log := st.log ++ [.info],
                  df := mapColAt st.df i (to_datetimeCell form) } ps

/-- `CleanerCSV.clean_datetime_columns`: gated on `clean_types` and a
truthy `datetime_col`; `len` of a missing `datetime_format` raises
`TypeError`; a column/format arity mismatch logs a warning and skips the
whole stage; otherwise the flag is set and each pair is parsed. -/
def clean_datetime_columns (cfg : Config) (st : CState) : StageRes :=
  if !truthyB cfg.clean_types || !truthyL cfg.datetime_col then .ok st
  else
    match cfg.datetime_format with
    | none => .error ("TypeError", st)
    | some forms =>
      if (cfg.datetime_col.getD []).length ≠ forms.length then
        .ok { st with log := st.log ++ [.warning] }
      else dtFold { st with df_changed := true } ((cfg.datetime_col.getD []).zip forms)

/-- `CleanerCSV.clean_drop_na`: when `drop_na` is truthy, drop the rows
whose cells are all missing (`dropna(axis="index", how="all")`) and set
the mutation flag. -/
def clean_drop_na (cfg : Config) (st : CState) : StageRes :=
  if !truthyB cfg.drop_na then .ok st
  else
    .ok { st with
          log := st.log ++ [.info],
          df_changed := true,
          df := { st.df with
                  rows := st.df.rows.filter (fun r => !r.all Cell.isNA) } }

/-- Drop one named column, `none` when the name is absent (`KeyError`). -/
def dropOneCol (df : DataFrame) (c : String) : Option DataFrame :=
  match colFindIdx df.cols c with
  | none => none
  | some i =>
    some { cols := df.cols.eraseIdx i, rows := df.rows.map (fun r => r.eraseIdx i) }

/-- The per-name loop of `drop_columns`: a missing name logs a warning
(the `KeyError` is caught) and the loop continues. -/
def dropColsFold (st : CState) : List String → CState
  | [] => st
  | c :: cs =>
    match dropOneCol st.df c with
    | some df2 => dropColsFold { st with df := df2 } cs
    | none => dropColsFold { st with log := st.log ++ [.warning] } cs

/-- `CleanerCSV.drop_columns`: a falsy `drop_col` returns unchanged;
otherwise log once and drop each named column; never sets the mutation
flag and never raises. -/
def drop_columns (cfg : Config) (st : CState) : StageRes :=
  if !truthyL cfg.drop_col then .ok st
  else
    .ok (dropColsFold { st with log := st.log ++ [.info] } (cfg.drop_col.getD []))

/-! ### The quantile-outlier stage -/

/-- Insert into a sorted list (ascending). -/
def insertQ (x : ℚ) : List ℚ → List ℚ
  | [] => [x]
  | y :: ys => if x ≤ y then x :: y :: ys else y :: insertQ x ys

/-- Insertion sort, ascending. -/
def sortQ (l : List ℚ) : List ℚ :=
  l.foldr insertQ []

/-- Modelled from `Series.quantile(q)` (linear interpolation, missing
values skipped by the caller): on sorted values `v₀ … vₙ₋₁` the result is
the linear interpolation at position `q·(n−1)`; `none` on an empty list
(pandas returns NaN there). -/
def quantileQ (xs : List ℚ) (q : ℚ) : Option ℚ :=
  match sortQ xs with
  | [] => none
  | v :: vs =>
    let s := v :: vs
    let n := s.length
    let h : ℚ := q * ((n : ℚ) - 1)
    let i : Nat := h.floor.toNat
    let lo := s.getD i 0
    let hi := s.getD (i + 1) lo
    some (lo + (h - (i : ℚ)) * (hi - lo))

/-- The numeric values of a cell list (missing values skipped). -/
def numsOf (cells : List Cell) : List ℚ :=
  cells.filterMap (fun c =>
    match c with
    | .num q => some q
    | _ => none)

/-- Only missing or numeric cells: anything else makes the pandas
quantile/comparison raise `TypeError` on the object column. -/
def colNumeric (cells : List Cell) : Bool :=
  cells.all (fun c => c.isNA || c.isNum)

/-- One iteration of the `clean_quantile_outliers` loop on the current
table: `Q1 = quantile(0.25)`, `Q3 = quantile(0.75)`, `IQR = Q1 - Q3`
(exactly the source's formula), bounds `Q1 - 1.5·IQR` and `Q3 + 1.5·IQR`,
keep the rows whose cell satisfies both bounds (a missing cell satisfies
neither; with no numeric values the bounds are NaN and no row survives). -/
def filterOne (df : DataFrame) (c : String) : Except Unit DataFrame :=
  match colFindIdx df.cols c with
  | none => .error ()
  | some i =>
    if !colNumeric (df.rows.map (fun r => cellIdx r i)) then .error ()
    else
      match quantileQ (numsOf (df.rows.map (fun r => cellIdx r i))) (1 / 4),
            quantileQ (numsOf (df.rows.map (fun r => cellIdx r i))) (3 / 4) with
      | some Q1, some Q3 =>
        .ok { df with
              rows := df.rows.filter (fun r =>
                match cellIdx r i with
                | .num q =>
                  decide (Q1 - 3 / 2 * (Q1 - Q3) ≤ q) &&
                    decide (q ≤ Q3 + 3 / 2 * (Q1 - Q3))
                | _ => false) }
      | _, _ => .ok { df with rows := [] }

/-- The column loop of `clean_quantile_outliers`, threading `self.df`. -/
def quantFold (st : CState) : List String → StageRes
  | [] => .ok st
  | c :: cs =>
    match filterOne st.df c with
    | .ok df2 => quantFold { st with df := df2 } cs
    | .error _ => .error ("TypeError", st)

/-- `CleanerCSV.clean_quantile_outliers`: a falsy `quantile_ouliers_col`
returns unchanged; otherwise filter sequentially by each listed column;
the stage neither logs nor sets the mutation flag. -/
def clean_quantile_outliers (cfg : Config) (st : CState) : StageRes :=
  if !truthyL cfg.quantile_ouliers_col then .ok st
  else quantFold st (cfg.quantile_ouliers_col.getD [])

/-- `CleanerCSV.run_all_cleaners`: the stage calls in source order (note:
datetime parsing runs before the three explicit casts). -/
def runAllCleaners (cfg : Config) (st : CState) : StageRes := do
  let st ← clean_headers cfg st
  let st ← clean_drop_dupplicates cfg st
  let st ← clean_numeric_columns cfg st
  let st ← clean_datetime_columns cfg st
  let st ← run_astype_conversion "int" cfg st
  let st ← run_astype_conversion "float" cfg st
  let st ← run_astype_conversion "str" cfg st
  let st ← clean_drop_na cfg st
  let st ← drop_columns cfg st
  clean_quantile_outliers cfg st

/-! ### Specification keys, defaults, and the configuration loader -/

/-- A JSON value of the kinds the recognized keys carry. -/
inductive JVal where
  | s (v : String)
  | b (v : Bool)
  | l (v : List String)
deriving DecidableEq

/-- The recognized specification keys (the key set of `DEFAULT_CFG`). -/
inductive CfgKey where
  | input_file
  | output_file
  | delimiter_in
  | delimiter_out
  | input_file_profile
  | output_file_profile
  | summary_file
  | drop_repeat_headers
  | drop_duplicates
  | drop_na
  | clean_types
  | export_output_file
  | str_col
  | float_col
  | int_col
  | numeric_col
  | datetime_col
  | datetime_format
  | drop_col
  | quantile_ouliers_col
deriving DecidableEq

/-- Lookup of a recognized key on a loaded specification: exactly
`self.cfg.get(key)` — the stored value if the key is present, `None`
(`Option.none`) otherwise. -/
def Config.getKey (cfg : Config) : CfgKey → Option JVal
  | .input_file => cfg.input_file.map .s
  | .output_file => cfg.output_file.map .s
  | .delimiter_in => cfg.delimiter_in.map .s
  | .delimiter_out => cfg.delimiter_out.map .s
  | .input_file_profile => cfg.input_file_profile.map .s
  | .output_file_profile => cfg.output_file_profile.map .s
  | .summary_file => cfg.summary_file.map .s
  | .drop_repeat_headers => cfg.drop_repeat_headers.map .b
  | .drop_duplicates => cfg.drop_duplicates.map .b
  | .drop_na => cfg.drop_na.map .b
  | .clean_types => cfg.clean_types.map .b
  | .export_output_file => cfg.export_output_file.map .b
  | .str_col => cfg.str_col.map .l
  | .float_col => cfg.float_col.map .l
  | .int_col => cfg.int_col.map .l
  | .numeric_col => cfg.numeric_col.map .l
  | .datetime_col => cfg.datetime_col.map .l
  | .datetime_format => cfg.datetime_format.map .l
  | .drop_col => cfg.drop_col.map .l
  | .quantile_ouliers_col => cfg.quantile_ouliers_col.map .l

/-- The module-level `DEFAULT_CFG` dict of `data_cleaner.py` (also the
per-key default table of spec §6). -/
def DEFAULT_CFG : Config where
  input_file := some "data/my_data.csv"
  output_file := some "data/my_data_clean1.csv"
  delimiter_in := some ","
  delimiter_out := some ","
  input_file_profile := some "profiles/input_file.html"
  output_file_profile := some "profiles/output_file.html"
  summary_file := some ""
  drop_repeat_headers := some true
  drop_duplicates := some true
  drop_na := some true
  clean_types := some true
  export_output_file := some true
  str_col := some ["Product", "Purchase Address"]
  float_col := some []
  int_col := some []
  numeric_col := some ["Order ID", "Quantity Ordered", "Price Each"]
  datetime_col := some ["Order Date"]
  datetime_format := some ["%m/%d/%y %H:%M"]
  drop_col := some []
  quantile_ouliers_col := some []

/-- The documented per-key default (spec §6): the `DEFAULT_CFG` entry. -/
def documentedDefault (k : CfgKey) : Option JVal :=
  DEFAULT_CFG.getKey k

/-- A specification with every recognized key absent. -/
def emptyConfig : Config :=
  {}

/-- A filesystem path (the `pathlib.Path` values compared by the loader,
after resolution; `Path.absolute` is abstracted into the constant below). -/
def SpecPath : Type := String

instance : DecidableEq SpecPath := instDecidableEqString

/-- The well-known default-specification location,
`(BASE_DIR / "default_specs.json").absolute()`. -/
def defaultSpecsPath : SpecPath :=
  "default_specs.json"

/-- What a filesystem holds at a path, as far as `json.load` can tell. -/
inductive FileContent where
  | absent
  | invalid
  | valid (cfg : Config)
deriving DecidableEq

/-- Missing resource or malformed content. -/
def FileContent.isBad : FileContent → Bool
  | .absent => true
  | .invalid => true
  | .valid _ => false

/-- Malformed content. -/
def FileContent.isInvalid : FileContent → Bool
  | .invalid => true
  | _ => false

/-- The read-relevant filesystem state. -/
def SpecFS : Type := SpecPath → FileContent

/-- What loading produces: the specification, the resolved source path
(`self.cfg_file`), whether the fallback was taken, and how many
warning-level messages were logged. -/
structure LoadResult where
  cfg : Config
  resolved : SpecPath
  usedFallback : Bool
  warnings : Nat
deriving DecidableEq

/-- `CleanerCSV.create_default_config`: read `default_specs.json` if it
exists (a malformed file makes `json.load` raise, uncaught), else fall
back to `DEFAULT_CFG` (persisting it is not modelled). -/
def create_default_config (fs : SpecFS) : Except Unit Config :=
  match fs defaultSpecsPath with
  | .valid cfg => .ok cfg
  | .invalid => .error ()
  | .absent => .ok DEFAULT_CFG

/-- The spec-loading part of `CleanerCSV.__init__`: parse the requested
resource; on `FileNotFoundError` or `JSONDecodeError` log a warning and
substitute `create_default_config`, resolving to the well-known default
location. -/
def load (fs : SpecFS) (p : SpecPath) : Except Unit LoadResult :=
  match fs p with
  | .valid cfg => .ok { cfg := cfg, resolved := p, usedFallback := false, warnings := 0 }
  | .absent =>
    match create_default_config fs with
    | .ok cfg => .ok { cfg := cfg, resolved := defaultSpecsPath, usedFallback := true, warnings := 1 }
    | .error e => .error e
  | .invalid =>
    match create_default_config fs with
    | .ok cfg => .ok { cfg := cfg, resolved := defaultSpecsPath, usedFallback := true, warnings := 1 }
    | .error e => .error e

/-! ### The profiling trigger -/

/-- Join a directory and a relative path (`self.local_path / p`). -/
def pathJoin (dir p : String) : String :=
  dir ++ "/" ++ p

/-- `CleanerCSV.html_profile`: target selection only (report rendering is
external).  `input_file_profile` is used while the mutation flag is false,
`output_file_profile` once it is true; a missing key makes the path join
raise `TypeError`.  Returns the chosen path. -/
def html_profile (cfg : Config) (local_path : String) (st : CState) :
    Except (String × CState) (String × CState) :=
  if !st.df_changed then
    match cfg.input_file_profile with
    | none => .error ("TypeError", st)
    | some p => .ok (pathJoin local_path p, { st with log := st.log ++ [.info, .info] })
  else
    match cfg.output_file_profile with
    | none => .error ("TypeError", st)
    | some p => .ok (pathJoin local_path p, { st with log := st.log ++ [.info, .info] })

/-- The artifact path of a profiling call, `none` if it raised. -/
def profilePathOf (r : Except (String × CState) (String × CState)) : Option String :=
  match r with
  | .ok (p, _) => some p
  | .error _ => none

/-! ### Definitions taken from the spec's words (for refinement claims) -/

/-- Modelled from the spec's words (§4.4 fixed order): the same stage
calls, but with the three explicit casts (int, float, str) strictly
before datetime parsing, as the spec claims. -/
def runAllCleanersSpecOrder (cfg : Config) (st : CState) : StageRes := do
  let st ← clean_headers cfg st
  let st ← clean_drop_dupplicates cfg st
  let st ← clean_numeric_columns cfg st
  let st ← run_astype_conversion "int" cfg st
  let st ← run_astype_conversion "float" cfg st
  let st ← run_astype_conversion "str" cfg st
  let st ← clean_datetime_columns cfg st
  let st ← clean_drop_na cfg st
  let st ← drop_columns cfg st
  clean_quantile_outliers cfg st

/-- Modelled from the claim's words (C5): the outlier stage as a
sequential fold in list order — for each column compute Q1 (25th
percentile) and Q3 (75th percentile) of the column's current values, set
the spread `IQR = Q1 − Q3` (exactly this formula), set bounds
`Q1 − 1.5·IQR` and `Q3 + 1.5·IQR`, retain only the rows whose value in
the column lies within those bounds, and recurse on the already-filtered
table, so that removed rows never contribute to later statistics. -/
def quantileStageSpec (df : DataFrame) : List String → Except Unit DataFrame
  | [] => .ok df
  | c :: cs =>
    match colFindIdx df.cols c with
    | none => .error ()
    | some i =>
      if !colNumeric (df.rows.map (fun r => cellIdx r i)) then .error ()
      else
        match quantileQ (numsOf (df.rows.map (fun r => cellIdx r i))) (1 / 4),
              quantileQ (numsOf (df.rows.map (fun r => cellIdx r i))) (3 / 4) with
        | some q1, some q3 =>
          quantileStageSpec
            { df with
              rows := df.rows.filter (fun r =>
                match cellIdx r i with
                | .num v =>
                  decide (q1 - 3 / 2 * (q1 - q3) ≤ v) &&
                    decide (v ≤ q3 + 3 / 2 * (q1 - q3))
                | _ => false) } cs
        | _, _ => quantileStageSpec { df with rows := [] } cs

/-! ### Access helpers used by the claim statements -/

/-- The cell of row `r` in the column named `c` of `df` (missing when the
column is absent). -/
def cellInCol (df : DataFrame) (r : List Cell) (c : String) : Cell :=
  match colFindIdx df.cols c with
  | some i => cellIdx r i
  | none => Cell.na

/-- How many audit messages of the given level a log holds. -/
def countLevel (lv : LogLevel) (l : List LogLevel) : Nat :=
  l.count lv

/-- Well-formed table: every row is exactly as wide as the column list. -/
def WF (df : DataFrame) : Prop :=
  ∀ r ∈ df.rows, r.length = df.cols.length

/-! ### Concrete fixtures used by the claim statements -/

/-- A state whose table holds two identical rows. -/
def dupRowsState : CState where
  df := { cols := ["A"], rows := [[.str "a"], [.str "a"]] }
  df_changed := false
  log := []

/-- A specification with two datetime columns but one format. -/
def cfgArityMismatch : Config :=
  { clean_types := some true,
    datetime_col := some ["A", "B"],
    datetime_format := some ["%m/%d/%y %H:%M"] }

/-- A one-column, one-row table state. -/
def stOneRow : CState where
  df := { cols := ["A"], rows := [[.str "x"]] }
  df_changed := false
  log := []

/-- A specification enabling only drop_na. -/
def cfgDropNA : Config :=
  { drop_na := some true }

/-- A table with one all-missing row and one partially missing row. -/
def stMixedNA : CState where
  df := { cols := ["A", "B"], rows := [[.na, .na], [.num 1, .na]] }
  df_changed := false
  log := []

/-- A specification whose two profile targets are the same path. -/
def cfgSameProfiles : Config :=
  { input_file_profile := some "p.html", output_file_profile := some "p.html" }

/-- A never-mutated state. -/
def stBeforeRun : CState where
  df := { cols := ["A"], rows := [[.num 1]] }
  df_changed := false
  log := []

/-- The same table after its mutation flag has been set. -/
def stAfterRun : CState where
  df := { cols := ["A"], rows := [[.num 1]] }
  df_changed := true
  log := []

/-- The default profile targets (distinct input/output paths). -/
def cfgTwoProfiles : Config :=
  { input_file_profile := some "profiles/input_file.html",
    output_file_profile := some "profiles/output_file.html" }

/-- A filesystem with no readable resources at all. -/
def fsAllAbsent : SpecFS := fun _ => .absent

/-- A filesystem on which every resource is malformed JSON. -/
def fsAllInvalid : SpecFS := fun _ => .invalid

/-- A filesystem where the user specification is malformed and the
default-specification location is empty. -/
def fsUserInvalid : SpecFS :=
  fun q => if q = "user_specs.json" then .invalid else .absent

/-- A specification exercising both the datetime stage and the string
cast on the same column (all other stages disabled or empty). -/
def cfgOrder : Config :=
  { clean_types := some true,
    numeric_col := some [],
    str_col := some ["A"],
    datetime_col := some ["A"],
    datetime_format := some ["%Y"] }

/-- A table whose single cell parses under neither order. -/
def stOrder : CState where
  df := { cols := ["A"], rows := [[.str "x"]] }
  df_changed := false
  log := []

/-- The stage sequence exactly as `run_all_cleaners` invokes it. -/
def pipelineStages : List (Config → CState → StageRes) :=
  [clean_headers,
   clean_drop_dupplicates,
   clean_numeric_columns,
   clean_datetime_columns,
   run_astype_conversion "int",
   run_astype_conversion "float",
   run_astype_conversion "str",
   clean_drop_na,
   drop_columns,
   clean_quantile_outliers]

/-- A specification enabling only the quantile-outlier stage. -/
def cfgQuantOnly : Config :=
  { quantile_ouliers_col := some ["A"] }

/-- A four-row numeric table (the inverted-spread bounds eliminate every
row of any non-constant column). -/
def stOutlier : CState where
  df := { cols := ["A"], rows := [[.num 1], [.num 2], [.num 3], [.num 100]] }
  df_changed := false
  log := []

/-- A constant numeric column with one missing cell. -/
def stConstNA : CState where
  df := { cols := ["A"], rows := [[.num 2], [.na], [.num 2]] }
  df_changed := false
  log := []

/-- The result of the outlier stage on stConstNA: the missing row is gone,
the constant rows survive (Q1 = Q3 makes the bounds degenerate-but-valid). -/
def stConstNAFiltered : CState where
  df := { cols := ["A"], rows := [[.num 2], [.num 2]] }
  df_changed := false
  log := []

/-- The datetime stage's arity test: a format list is present and as long
as the column list (false when datetime_format is absent, in which case
the stage raises before it could set the flag). -/
def dtArityOk (cfg : Config) : Bool :=
  match cfg.datetime_format with
  | some forms => (cfg.datetime_col.getD []).length == forms.length
  | none => false

/-- A specification where clean_types is on but numeric_col is empty: the
numeric stage is a pure no-op on the table. -/
def cfgNoopNumeric : Config :=
  { clean_types := some true, numeric_col := some [] }

/-- What a column holds after one astype attempt: the cast cells on
success, the untouched original cells when the cast raised. -/
def castOr (f : Cell → Except Unit Cell) (cells : List Cell) : List Cell :=
  match castColumn f cells with
  | .ok vals => vals
  | .error _ => cells

/-- Whether a whole-column cast raises. -/
def castFails (f : Cell → Except Unit Cell) (cells : List Cell) : Bool :=
  match castColumn f cells with
  | .ok _ => false
  | .error _ => true

/-- Whether the astype attempt on the named column of `df` raises. -/
def colCastFails (f : Cell → Except Unit Cell) (df : DataFrame) (c : String) : Bool :=
  match colCells df c with
  | some cells => castFails f cells
  | none => false

/-- How many of the listed columns fail their cast against `df`. -/
def failCount (f : Cell → Except Unit Cell) (df : DataFrame) (cols : List String) : Nat :=
  cols.countP (colCastFails f df)

/-- A specification casting column A to int. -/
def cfgIntCast : Config :=
  { clean_types := some true, int_col := some ["A"] }

/-- A table whose column A holds a non-numeric string among numerals. -/
def stBadInt : CState where
  df := { cols := ["A"], rows := [[.str "1"], [.str "bad"], [.str "3"]] }
  df_changed := false
  log := []

/-! ### Small supporting lemmas -/

theorem truthyL_some_ne_nil {l : List String} (h : l ≠ []) : truthyL (some l) = true := by
  cases l with
  | nil => exact absurd rfl h
  | cons x xs => rfl

theorem colFindIdx_of_mem {cols : List String} {c : String} (h : c ∈ cols) :
    ∃ i, colFindIdx cols c = some i := by
  induction cols with
  | nil => simp at h
  | cons x xs ih =>
    by_cases hx : x = c
    · exact ⟨0, by simp [colFindIdx, hx]⟩
    · have hc : c ∈ xs := by
        cases List.mem_cons.mp h with
        | inl hh => exact absurd hh.symm hx
        | inr hh => exact hh
      obtain ⟨i, hi⟩ := ih hc
      exact ⟨i + 1, by simp [colFindIdx, hx, hi]⟩

theorem colFindIdx_getD {cols : List String} {c : String} {i : Nat}
    (h : colFindIdx cols c = some i) : cols.getD i "" = c ∧ i < cols.length := by
  induction cols generalizing i with
  | nil => simp [colFindIdx] at h
  | cons x xs ih =>
    by_cases hx : x = c
    · simp [colFindIdx, hx] at h
      subst h
      simp [hx]
    · simp [colFindIdx, hx] at h
      obtain ⟨j, hj, hji⟩ := h
      subst hji
      obtain ⟨hg, hl⟩ := ih hj
      exact ⟨by simpa using hg, by simpa using Nat.succ_lt_succ hl⟩

theorem colFindIdx_inj {cols : List String} {c c2 : String} {i : Nat}
    (h1 : colFindIdx cols c = some i) (h2 : colFindIdx cols c2 = some i) : c = c2 := by
  have g1 := (colFindIdx_getD h1).1
  have g2 := (colFindIdx_getD h2).1
  rw [g1] at g2
  exact g2

theorem getD_set_self (r : List Cell) (i : Nat) (v d : Cell) (h : i < r.length) :
    (r.set i v).getD i d = v := by
  induction r generalizing i with
  | nil => simp at h
  | cons x xs ih =>
    cases i with
    | zero => rfl
    | succ n => simpa using ih n (Nat.lt_of_succ_lt_succ h)

theorem getD_set_ne (r : List Cell) {i j : Nat} (v d : Cell) (h : j ≠ i) :
    (r.set i v).getD j d = r.getD j d := by
  induction r generalizing i j with
  | nil => rfl
  | cons x xs ih =>
    cases i with
    | zero =>
      cases j with
      | zero => exact absurd rfl h
      | succ m => rfl
    | succ n =>
      cases j with
      | zero => rfl
      | succ m => simpa using ih (fun hh => h (by rw [hh]))

theorem bnot_all_isNA (r : List Cell) :
    (!r.all Cell.isNA) = r.any (fun c => !c.isNA) := by
  induction r with
  | nil => rfl
  | cons x xs ih => simp [List.all_cons, List.any_cons, Bool.not_and, ih]

/-! ### Claim C1 — lookup of omitted keys -/

/-- Claim C1 fails on the code: on a specification missing every key,
looking up the recognized key drop_duplicates does not return its
documented default (it returns none, Python None), and the duplicate
removal stage does not run — the two identical rows survive — whereas
under the documented default (true, as in DEFAULT_CFG) the stage runs and
removes one of them. -/
theorem missing_key_default_lookup_cex :
    Config.getKey emptyConfig CfgKey.drop_duplicates ≠
      documentedDefault CfgKey.drop_duplicates ∧
    clean_drop_dupplicates emptyConfig dupRowsState = .ok dupRowsState ∧
    truthyB DEFAULT_CFG.drop_duplicates = true ∧
    clean_drop_dupplicates DEFAULT_CFG dupRowsState ≠ .ok dupRowsState := by
  refine ⟨by decide, by decide, by decide, by decide⟩

/-- Claim C1, amended: lookup of a recognized key absent from the loaded
specification returns no value (Python dict.get yields None), not the
documented per-key default; a stage guarded by such a key treats the
absent value as falsy, so a spec missing drop_duplicates skips duplicate
removal entirely. -/
theorem missing_key_lookup_is_none :
    (∀ k, Config.getKey emptyConfig k = none) ∧
    (∀ (cfg : Config) (st : CState), cfg.drop_duplicates = none →
       clean_drop_dupplicates cfg st = .ok st) := by
  constructor
  · intro k
    cases k <;> rfl
  · intro cfg st h
    unfold clean_drop_dupplicates
    rw [h]
    rfl

/-- Witness for the amended C1 at a concrete specification and table. -/
theorem missing_key_lookup_is_none_witness :
    clean_drop_dupplicates emptyConfig dupRowsState = .ok dupRowsState :=
  missing_key_lookup_is_none.2 emptyConfig dupRowsState rfl

/-! ### Claim C7 — datetime arity mismatch skips the whole stage -/

/-- Claim C7: with clean_types enabled, a non-empty datetime_col and a
datetime_format of different length, the datetime stage is a complete
no-op on the table and the flag: it only logs one warning and returns
normally (so the run continues with the later stages). -/
theorem datetime_arity_mismatch_skips (cfg : Config) (st : CState)
    (cols forms : List String)
    (hct : truthyB cfg.clean_types = true)
    (hc : cfg.datetime_col = some cols) (hne : cols ≠ [])
    (hf : cfg.datetime_format = some forms)
    (hlen : cols.length ≠ forms.length) :
    clean_datetime_columns cfg st = .ok { st with log := st.log ++ [.warning] } := by
  unfold clean_datetime_columns
  rw [hc, hf]
  simp [hct, truthyL_some_ne_nil hne, hlen]

/-- Witness for C7 at a concrete specification and table. -/
theorem datetime_arity_mismatch_skips_witness :
    clean_datetime_columns cfgArityMismatch stOneRow =
      .ok { stOneRow with log := stOneRow.log ++ [.warning] } :=
  datetime_arity_mismatch_skips cfgArityMismatch stOneRow ["A", "B"]
    ["%m/%d/%y %H:%M"] rfl rfl (by decide) rfl (by decide)

/-! ### Claim C9 — missing-row removal drops only all-missing rows -/

/-- Claim C9: when drop_na is enabled the stage removes exactly the rows
whose cells are all missing; a row is retained iff it has at least one
non-missing cell, and retained rows are unchanged (the result is a filter
of the original row list). -/
theorem drop_na_all_missing_only (cfg : Config) (st : CState)
    (h : truthyB cfg.drop_na = true) :
    clean_drop_na cfg st =
      .ok { st with
            log := st.log ++ [.info],
            df_changed := true,
            df := { st.df with
                    rows := st.df.rows.filter (fun r => r.any (fun c => !c.isNA)) } } ∧
    ∀ r, r ∈ (stateOf (clean_drop_na cfg st)).df.rows ↔
      (r ∈ st.df.rows ∧ ∃ c ∈ r, c.isNA = false) := by
  have hmain : clean_drop_na cfg st =
      .ok { st with
            log := st.log ++ [.info],
            df_changed := true,
            df := { st.df with
                    rows := st.df.rows.filter (fun r => r.any (fun c => !c.isNA)) } } := by
    unfold clean_drop_na
    simp only [h, Bool.not_true, Bool.false_eq_true, if_false]
    have : st.df.rows.filter (fun r => !r.all Cell.isNA) =
        st.df.rows.filter (fun r => r.any (fun c => !c.isNA)) :=
      List.filter_congr (fun r _ => bnot_all_isNA r)
    rw [this]
  refine ⟨hmain, ?_⟩
  intro r
  rw [hmain]
  simp only [stateOf, List.mem_filter]
  constructor
  · rintro ⟨hr, hany⟩
    refine ⟨hr, ?_⟩
    obtain ⟨c, hc, hcn⟩ := List.any_eq_true.mp hany
    exact ⟨c, hc, by simpa using hcn⟩
  · rintro ⟨hr, c, hc, hcn⟩
    exact ⟨hr, List.any_eq_true.mpr ⟨c, hc, by simp [hcn]⟩⟩

/-- Witness for C9: the all-missing row is dropped, the half-missing row
is kept unchanged. -/
theorem drop_na_all_missing_only_witness :
    clean_drop_na cfgDropNA stMixedNA =
      .ok { stMixedNA with
            log := stMixedNA.log ++ [.info],
            df_changed := true,
            df := { stMixedNA.df with
                    rows := stMixedNA.df.rows.filter (fun r => r.any (fun c => !c.isNA)) } } :=
  (drop_na_all_missing_only cfgDropNA stMixedNA rfl).1

/-! ### Claim C8 — profiling target selection -/

theorem string_append_cancel_left (a b c : String) (h : a ++ b = a ++ c) : b = c := by
  have hd : (a ++ b).data = (a ++ c).data := by rw [h]
  simp only [String.data_append] at hd
  have hbc : b.data = c.data := List.append_cancel_left hd
  cases b
  cases c
  exact congrArg String.mk (by simpa using hbc)

/-- Claim C8 fails on the code as stated: when the specification gives
input_file_profile and output_file_profile the same value, the calls
before and after mutation resolve to the same artifact path, not two
distinct ones. -/
theorem profile_targets_equal_cex :
    stBeforeRun.df_changed = false ∧ stAfterRun.df_changed = true ∧
    profilePathOf (html_profile cfgSameProfiles "dir" stBeforeRun) =
      profilePathOf (html_profile cfgSameProfiles "dir" stAfterRun) := by
  refine ⟨rfl, rfl, by decide⟩

/-- Claim C8, amended: html_profile selects its target purely from the
mutation flag — input_file_profile while the flag is false,
output_file_profile once it is true — and the before/after artifact paths
are distinct provided the two configured profile values differ. -/
theorem html_profile_target_selection (cfg : Config) (lp : String) (st : CState)
    (ip op : String)
    (hip : cfg.input_file_profile = some ip)
    (hop : cfg.output_file_profile = some op) :
    (st.df_changed = false →
       profilePathOf (html_profile cfg lp st) = some (pathJoin lp ip)) ∧
    (st.df_changed = true →
       profilePathOf (html_profile cfg lp st) = some (pathJoin lp op)) ∧
    (ip ≠ op → pathJoin lp ip ≠ pathJoin lp op) := by
  refine ⟨?_, ?_, ?_⟩
  · intro hch
    unfold html_profile
    rw [hch, hip]
    rfl
  · intro hch
    unfold html_profile
    rw [hch, hop]
    rfl
  · intro hne hcontra
    exact hne (string_append_cancel_left (lp ++ "/") ip op hcontra)

/-- Witness for the amended C8 at a concrete specification. -/
theorem html_profile_target_selection_witness :
    (stBeforeRun.df_changed = false →
       profilePathOf (html_profile cfgTwoProfiles "dir" stBeforeRun) =
         some (pathJoin "dir" "profiles/input_file.html")) ∧
    (stBeforeRun.df_changed = true →
       profilePathOf (html_profile cfgTwoProfiles "dir" stBeforeRun) =
         some (pathJoin "dir" "profiles/output_file.html")) ∧
    ("profiles/input_file.html" ≠ "profiles/output_file.html" →
       pathJoin "dir" "profiles/input_file.html" ≠
         pathJoin "dir" "profiles/output_file.html") :=
  html_profile_target_selection cfgTwoProfiles "dir" stBeforeRun
    "profiles/input_file.html" "profiles/output_file.html" rfl rfl

/-! ### Claim C4 — fallback on missing or malformed specification -/

/-- Claim C4 fails on the code as stated: requesting the well-known
default-specification location itself (when absent) falls back with a
resolved path equal to the requested path, and a malformed resource
combined with a malformed persisted default makes loading raise (the
json.load inside the fallback is uncaught). -/
theorem load_fallback_cex :
    load fsAllAbsent defaultSpecsPath =
      .ok { cfg := DEFAULT_CFG, resolved := defaultSpecsPath,
            usedFallback := true, warnings := 1 } ∧
    load fsAllInvalid "my_specs.json" = .error () := by
  refine ⟨rfl, rfl⟩

/-- Claim C4, amended: for a requested path whose resource is missing or
malformed, provided the requested path is not itself the well-known
default-specification location and any resource persisted there parses,
loading does not raise: it substitutes the default specification, logs a
warning, reports the fallback, and resolves to the default location,
which differs from the requested path. -/
theorem load_fallback_ok (fs : SpecFS) (p : SpecPath)
    (hbad : (fs p).isBad = true)
    (hne : p ≠ defaultSpecsPath)
    (hdflt : (fs defaultSpecsPath).isInvalid = false) :
    ∃ cfg, load fs p =
        .ok { cfg := cfg, resolved := defaultSpecsPath,
              usedFallback := true, warnings := 1 } ∧
      defaultSpecsPath ≠ p := by
  have hcreate : ∃ cfg, create_default_config fs = .ok cfg := by
    unfold create_default_config
    cases h2 : fs defaultSpecsPath with
    | valid c => exact ⟨c, rfl⟩
    | absent => exact ⟨DEFAULT_CFG, rfl⟩
    | invalid => rw [h2] at hdflt; simp [FileContent.isInvalid] at hdflt
  obtain ⟨cfg, hcfg⟩ := hcreate
  refine ⟨cfg, ?_, fun hh => hne hh.symm⟩
  unfold load
  cases h1 : fs p with
  | valid c => rw [h1] at hbad; simp [FileContent.isBad] at hbad
  | absent => rw [hcfg]
  | invalid => rw [hcfg]

/-- Witness for the amended C4 at a concrete filesystem and path. -/
theorem load_fallback_ok_witness :
    ∃ cfg, load fsUserInvalid "user_specs.json" =
        .ok { cfg := cfg, resolved := defaultSpecsPath,
              usedFallback := true, warnings := 1 } ∧
      defaultSpecsPath ≠ "user_specs.json" :=
  load_fallback_ok fsUserInvalid "user_specs.json" (by decide) (by decide) (by decide)

/-! ### Claim C2 — stage execution order -/

/-- Claim C2 fails on the code: run_all_cleaners runs datetime parsing
before the explicit casts, not after as §4.4 orders them.  On this input
the code order first coerces the unparsable cell to missing and then
stringifies the missing sentinel, while the §4.4 order would stringify
the cell first and then coerce it to missing — the two composites
disagree. -/
theorem pipeline_order_cex :
    (stateOf (runAllCleaners cfgOrder stOrder)).df.rows = [[.str "nan"]] ∧
    (stateOf (runAllCleanersSpecOrder cfgOrder stOrder)).df.rows = [[.na]] ∧
    runAllCleaners cfgOrder stOrder ≠ runAllCleanersSpecOrder cfgOrder stOrder := by
  refine ⟨by decide, by decide, by decide⟩

/-- Claim C2, amended: for every specification and table,
run_all_cleaners is the sequential composition of the stages in the fixed
source order — headers, duplicates, numeric coercion, datetime parsing,
then the explicit casts (int, float, str), missing-row removal, column
removal, quantile outliers — i.e. datetime parsing runs strictly before
the explicit type casts, not after them. -/
theorem pipeline_fixed_source_order (cfg : Config) (st : CState) :
    runAllCleaners cfg st = pipelineStages.foldlM (fun s f => f cfg s) st := by
  simp only [pipelineStages, List.foldlM, bind_pure]
  rfl

/-! ### Claim C5 — the outlier stage is a sequential fold -/

theorem spec_step (df : DataFrame) (c : String) (cs : List String) :
    quantileStageSpec df (c :: cs) =
      match filterOne df c with
      | .ok df2 => quantileStageSpec df2 cs
      | .error e => .error e := by
  conv_lhs => unfold quantileStageSpec
  unfold filterOne
  cases hci : colFindIdx df.cols c with
  | none => rfl
  | some i =>
    by_cases hnum : colNumeric (df.rows.map (fun r => cellIdx r i))
    · simp only [hnum, Bool.not_true, Bool.false_eq_true, if_false]
      cases hq1 : quantileQ (numsOf (df.rows.map (fun r => cellIdx r i))) (1 / 4) with
      | none =>
        cases hq3 : quantileQ (numsOf (df.rows.map (fun r => cellIdx r i))) (3 / 4) <;> rfl
      | some q1 =>
        cases hq3 : quantileQ (numsOf (df.rows.map (fun r => cellIdx r i))) (3 / 4) <;> rfl
    · simp only [Bool.not_eq_true] at hnum
      simp only [hnum, Bool.not_false, if_true]

theorem quantFold_ok_iff (cols : List String) (st : CState) (df2 : DataFrame) :
    quantFold st cols = .ok { st with df := df2 } ↔
      quantileStageSpec st.df cols = .ok df2 := by
  induction cols generalizing st with
  | nil =>
    constructor
    · intro h
      have h2 : st = { st with df := df2 } := Except.ok.inj h
      have h3 : st.df = df2 := congrArg CState.df h2
      rw [← h3]
      rfl
    · intro h
      have h3 : st.df = df2 := Except.ok.inj h
      rw [← h3]
      rfl
  | cons c cs ih =>
    rw [spec_step]
    unfold quantFold
    cases hf : filterOne st.df c with
    | error e => simp
    | ok dfa =>
      simpa using ih { st with df := dfa }

/-- Claim C5: on a specification listing a non-empty quantile_ouliers_col,
the stage's result table is exactly the sequential fold of the spec's
description — per column, Q1 and Q3 of the current (already-filtered)
values, spread IQR = Q1 − Q3, bounds Q1 − 1.5·IQR and Q3 + 1.5·IQR, keep
rows within the bounds, never revisiting removed rows. -/
theorem quantile_outliers_eq_spec_fold (cfg : Config) (st : CState)
    (cols : List String)
    (hq : cfg.quantile_ouliers_col = some cols) (hne : cols ≠ []) :
    ∀ df2, clean_quantile_outliers cfg st = .ok { st with df := df2 } ↔
      quantileStageSpec st.df cols = .ok df2 := by
  intro df2
  unfold clean_quantile_outliers
  rw [hq]
  simp only [truthyL_some_ne_nil hne, Bool.not_true, Bool.false_eq_true, if_false,
    Option.getD_some]
  exact quantFold_ok_iff cols st df2

/-- Witness for C5 at a concrete specification and table. -/
theorem quantile_outliers_eq_spec_fold_witness :
    clean_quantile_outliers cfgQuantOnly stOutlier =
      .ok { stOutlier with df := { cols := ["A"], rows := [] } } :=
  (quantile_outliers_eq_spec_fold cfgQuantOnly stOutlier ["A"] rfl (by decide)
    { cols := ["A"], rows := [] }).mpr (by with_unfolding_all rfl)

/-! ### Claim C10 — the outlier stage removes rows missing in a listed column -/

theorem isNum_isNA_false {c : Cell} (h : c.isNum = true) : c.isNA = false := by
  cases c <;> simp [Cell.isNum, Cell.isNA] at h ⊢

theorem filterOne_ok (df : DataFrame) (c : String) (df2 : DataFrame)
    (h : filterOne df c = .ok df2) :
    df2.cols = df.cols ∧
    (∀ r ∈ df2.rows, r ∈ df.rows) ∧
    ∃ i, colFindIdx df.cols c = some i ∧
      ∀ r ∈ df2.rows, (cellIdx r i).isNum = true := by
  unfold filterOne at h
  split at h
  · simp at h
  · rename_i i hci
    split at h
    · simp at h
    · split at h
      · rename_i q1 q3 hq1 hq3
        have hdf2 := Except.ok.inj h
        refine ⟨by rw [← hdf2], ?_, ⟨i, hci, ?_⟩⟩
        · intro r hr
          rw [← hdf2] at hr
          exact (List.mem_filter.mp hr).1
        · intro r hr
          rw [← hdf2] at hr
          have hp := (List.mem_filter.mp hr).2
          cases hcell : cellIdx r i <;> rw [hcell] at hp <;> simp at hp
          rfl
      · have hdf2 := Except.ok.inj h
        refine ⟨by rw [← hdf2], ?_, ⟨i, hci, ?_⟩⟩ <;>
          · intro r hr
            rw [← hdf2] at hr
            simp at hr

theorem quantFold_ok (cols : List String) (st st2 : CState)
    (h : quantFold st cols = .ok st2) :
    st2.df.cols = st.df.cols ∧
    (∀ r ∈ st2.df.rows, r ∈ st.df.rows) ∧
    ∀ c ∈ cols, ∀ r ∈ st2.df.rows, (cellInCol st2.df r c).isNum = true := by
  induction cols generalizing st with
  | nil =>
    have h2 : st = st2 := Except.ok.inj h
    subst h2
    exact ⟨rfl, fun r hr => hr, by simp⟩
  | cons c cs ih =>
    unfold quantFold at h
    cases hf : filterOne st.df c with
    | error e =>
      rw [hf] at h
      simp at h
    | ok dfa =>
      rw [hf] at h
      obtain ⟨hcols, hsub, hnums⟩ := ih { st with df := dfa } h
      obtain ⟨fcols, fsub, i, hi, fnum⟩ := filterOne_ok st.df c dfa hf
      have hcols2 : st2.df.cols = st.df.cols := by
        rw [hcols]
        exact fcols
      refine ⟨hcols2, ?_, ?_⟩
      · intro r hr
        exact fsub r (hsub r hr)
      · intro c2 hc2 r hr
        cases List.mem_cons.mp hc2 with
        | inl hceq =>
          subst hceq
          have hidx : colFindIdx st2.df.cols c2 = some i := by
            rw [hcols2]
            exact hi
          unfold cellInCol
          simp only [hidx]
          exact fnum r (hsub r hr)
        | inr hmem =>
          exact hnums c2 hmem r hr

/-- Claim C10: whenever the quantile-outlier stage returns normally on a
specification listing quantile_ouliers_col, every surviving row has a
non-missing (numeric) value in each listed column — a missing value
satisfies neither bound comparison — so rows missing in a listed column
never survive, even with drop_na disabled. -/
theorem quantile_survivors_non_missing (cfg : Config) (st st2 : CState)
    (cols : List String)
    (hq : cfg.quantile_ouliers_col = some cols)
    (hok : clean_quantile_outliers cfg st = .ok st2) :
    (∀ r ∈ st2.df.rows, ∀ c ∈ cols, (cellInCol st2.df r c).isNA = false) ∧
    (∀ r, ∀ c ∈ cols, (cellInCol st2.df r c).isNA = true → r ∉ st2.df.rows) := by
  have hmain : ∀ r ∈ st2.df.rows, ∀ c ∈ cols, (cellInCol st2.df r c).isNA = false := by
    unfold clean_quantile_outliers at hok
    rw [hq] at hok
    cases cols with
    | nil => simp
    | cons c0 cs0 =>
      rw [truthyL_some_ne_nil (by simp)] at hok
      simp only [Bool.not_true, Bool.false_eq_true, if_false, Option.getD_some] at hok
      have hq2 := (quantFold_ok (c0 :: cs0) st st2 hok).2.2
      intro r hr c hc
      exact isNum_isNA_false (hq2 c hc r hr)
  refine ⟨hmain, ?_⟩
  intro r c hc hna hr
  rw [hmain r hr c hc] at hna
  cases hna

/-- Witness for C10: the all-missing row does not survive the stage. -/
theorem quantile_survivors_non_missing_witness :
    [Cell.na] ∉ stConstNAFiltered.df.rows :=
  (quantile_survivors_non_missing cfgQuantOnly stConstNA stConstNAFiltered ["A"]
      rfl (by with_unfolding_all rfl)).2 [Cell.na] "A" (by decide) (by decide)

/-! ### Claim C3 — which stages set the mutation flag -/

theorem numericFold_flag (cols : List String) (st : CState) :
    (stateOf (numericFold st cols)).df_changed = st.df_changed := by
  induction cols generalizing st with
  | nil => rfl
  | cons c cs ih =>
    unfold numericFold
    cases hci : colFindIdx st.df.cols c with
    | none => simp [hci, stateOf]
    | some i =>
      simp only [hci]
      exact ih _

theorem astypeFold_flag (f : Cell → Except Unit Cell) (cols : List String) (st : CState) :
    (stateOf (astypeFold f st cols)).df_changed = st.df_changed := by
  induction cols generalizing st with
  | nil => rfl
  | cons c cs ih =>
    unfold astypeFold
    cases hci : colFindIdx st.df.cols c with
    | none => simp [hci, stateOf]
    | some i =>
      simp only [hci]
      cases hcast : castColumn f (st.df.rows.map (fun r => cellIdx r i)) with
      | ok vals =>
        simp only [hcast]
        exact ih _
      | error e =>
        simp only [hcast]
        exact ih _

theorem dtFold_flag (ps : List (String × String)) (st : CState) :
    (stateOf (dtFold st ps)).df_changed = st.df_changed := by
  induction ps generalizing st with
  | nil => rfl
  | cons p ps ih =>
    unfold dtFold
    cases hci : colFindIdx st.df.cols p.1 with
    | none => simp [hci, stateOf]
    | some i =>
      simp only [hci]
      exact ih _

theorem quantFold_flag (cols : List String) (st : CState) :
    (stateOf (quantFold st cols)).df_changed = st.df_changed := by
  induction cols generalizing st with
  | nil => rfl
  | cons c cs ih =>
    unfold quantFold
    cases hf : filterOne st.df c with
    | ok dfa =>
      simp only [hf]
      exact ih _
    | error e => simp [hf, stateOf]

theorem dropColsFold_flag (cols : List String) (st : CState) :
    (dropColsFold st cols).df_changed = st.df_changed := by
  induction cols generalizing st with
  | nil => rfl
  | cons c cs ih =>
    unfold dropColsFold
    cases hd : dropOneCol st.df c with
    | some df2 =>
      simp only [hd]
      exact ih _
    | none =>
      simp only [hd]
      exact ih _

theorem clean_headers_flag (cfg : Config) (st : CState) :
    (stateOf (clean_headers cfg st)).df_changed =
      (st.df_changed || truthyB cfg.drop_repeat_headers) := by
  unfold clean_headers
  cases h : truthyB cfg.drop_repeat_headers <;> simp [h, stateOf]

theorem clean_drop_dupplicates_flag (cfg : Config) (st : CState) :
    (stateOf (clean_drop_dupplicates cfg st)).df_changed =
      (st.df_changed || truthyB cfg.drop_duplicates) := by
  unfold clean_drop_dupplicates
  cases h : truthyB cfg.drop_duplicates <;> simp [h, stateOf]

theorem clean_numeric_columns_flag (cfg : Config) (st : CState) :
    (stateOf (clean_numeric_columns cfg st)).df_changed =
      (st.df_changed || truthyB cfg.clean_types) := by
  unfold clean_numeric_columns
  cases h : truthyB cfg.clean_types with
  | false => simp [stateOf]
  | true =>
    simp only [Bool.not_true, Bool.false_eq_true, if_false, Bool.or_true]
    cases hnc : cfg.numeric_col with
    | none => simp [stateOf]
    | some cols => simp [numericFold_flag]

theorem run_astype_conversion_flag (tstr : String) (cfg : Config) (st : CState)
    (optCols : Option (List String))
    (hchoice : colsChoiceOf cfg tstr = some optCols) :
    (stateOf (run_astype_conversion tstr cfg st)).df_changed =
      (st.df_changed || (truthyB cfg.clean_types && truthyL optCols)) := by
  unfold run_astype_conversion
  rw [hchoice]
  cases h : truthyB cfg.clean_types with
  | false => simp [stateOf]
  | true =>
    simp only [Bool.not_true, Bool.false_eq_true, if_false, Bool.true_and]
    cases hl : truthyL optCols with
    | false => simp [hl, stateOf]
    | true => simp [hl, astypeFold_flag]

theorem dtArityOkSound (cfg : Config) :
    dtArityOk cfg = true ↔
      ∃ forms, cfg.datetime_format = some forms ∧
        (cfg.datetime_col.getD []).length = forms.length := by
  unfold dtArityOk
  cases hf : cfg.datetime_format with
  | none => simp
  | some forms => simp [Nat.beq_eq]

theorem clean_datetime_columns_flag (cfg : Config) (st : CState) :
    (stateOf (clean_datetime_columns cfg st)).df_changed =
      (st.df_changed ||
        (truthyB cfg.clean_types && (truthyL cfg.datetime_col && dtArityOk cfg))) := by
  unfold clean_datetime_columns
  cases hct : truthyB cfg.clean_types with
  | false => simp [stateOf]
  | true =>
    cases hdc : truthyL cfg.datetime_col with
    | false => simp [stateOf]
    | true =>
      simp only [Bool.not_true, Bool.false_or, Bool.false_eq_true, if_false,
        Bool.true_and]
      unfold dtArityOk
      cases hf : cfg.datetime_format with
      | none => simp [stateOf]
      | some forms =>
        by_cases hlen : (cfg.datetime_col.getD []).length = forms.length
        · simp [hlen, dtFold_flag]
        · simp [hlen, stateOf, Nat.beq_eq]

theorem clean_drop_na_flag (cfg : Config) (st : CState) :
    (stateOf (clean_drop_na cfg st)).df_changed =
      (st.df_changed || truthyB cfg.drop_na) := by
  unfold clean_drop_na
  cases h : truthyB cfg.drop_na <;> simp [h, stateOf]

theorem drop_columns_flag (cfg : Config) (st : CState) :
    (stateOf (drop_columns cfg st)).df_changed = st.df_changed := by
  unfold drop_columns
  cases h : truthyL cfg.drop_col with
  | false => simp [stateOf]
  | true => simp [stateOf, dropColsFold_flag]

theorem clean_quantile_outliers_flag (cfg : Config) (st : CState) :
    (stateOf (clean_quantile_outliers cfg st)).df_changed = st.df_changed := by
  unfold clean_quantile_outliers
  cases h : truthyL cfg.quantile_ouliers_col with
  | false => simp [stateOf]
  | true => simp [quantFold_flag]

/-- Claim C3 fails on the code in both directions: the numeric-coercion
stage with an empty numeric_col (a pure no-op) still sets the mutation
flag, and the quantile-outlier stage removes every row of a four-row
table yet leaves the flag false. -/
theorem mutation_flag_cex :
    (stateOf (clean_numeric_columns cfgNoopNumeric stOneRow)).df_changed = true ∧
    stOneRow.df_changed = false ∧
    clean_quantile_outliers cfgQuantOnly stOutlier =
      .ok { df := { cols := ["A"], rows := [] }, df_changed := false, log := [] } ∧
    stOutlier.df.rows.length = 4 := by
  refine ⟨rfl, rfl, by with_unfolding_all rfl, rfl⟩

/-- Claim C3, amended: stages 1–6 set the Mutation flag exactly when
their guard passes — headers/duplicates/drop_na when their toggle is
truthy, numeric coercion whenever clean_types is truthy (even with an
empty numeric_col), each cast category when clean_types is truthy and its
column list non-empty, datetime when clean_types is truthy, datetime_col
non-empty and the format arity matches — regardless of whether the table
actually changes; column removal and quantile-outlier removal never set
the flag, even when they drop columns or rows. -/
theorem mutation_flag_per_stage (cfg : Config) (st : CState) :
    ((stateOf (clean_headers cfg st)).df_changed =
      (st.df_changed || truthyB cfg.drop_repeat_headers)) ∧
    ((stateOf (clean_drop_dupplicates cfg st)).df_changed =
      (st.df_changed || truthyB cfg.drop_duplicates)) ∧
    ((stateOf (clean_numeric_columns cfg st)).df_changed =
      (st.df_changed || truthyB cfg.clean_types)) ∧
    ((stateOf (run_astype_conversion "int" cfg st)).df_changed =
      (st.df_changed || (truthyB cfg.clean_types && truthyL cfg.int_col))) ∧
    ((stateOf (run_astype_conversion "float" cfg st)).df_changed =
      (st.df_changed || (truthyB cfg.clean_types && truthyL cfg.float_col))) ∧
    ((stateOf (run_astype_conversion "str" cfg st)).df_changed =
      (st.df_changed || (truthyB cfg.clean_types && truthyL cfg.str_col))) ∧
    ((stateOf (clean_datetime_columns cfg st)).df_changed =
      (st.df_changed ||
        (truthyB cfg.clean_types && (truthyL cfg.datetime_col && dtArityOk cfg)))) ∧
    ((stateOf (clean_drop_na cfg st)).df_changed =
      (st.df_changed || truthyB cfg.drop_na)) ∧
    ((stateOf (drop_columns cfg st)).df_changed = st.df_changed) ∧
    ((stateOf (clean_quantile_outliers cfg st)).df_changed = st.df_changed) :=
  ⟨clean_headers_flag cfg st,
   clean_drop_dupplicates_flag cfg st,
   clean_numeric_columns_flag cfg st,
   run_astype_conversion_flag "int" cfg st cfg.int_col rfl,
   run_astype_conversion_flag "float" cfg st cfg.float_col rfl,
   run_astype_conversion_flag "str" cfg st cfg.str_col rfl,
   clean_datetime_columns_flag cfg st,
   clean_drop_na_flag cfg st,
   drop_columns_flag cfg st,
   clean_quantile_outliers_flag cfg st⟩

/-! ### Claim C6 — per-column cast-failure isolation -/

theorem castColumn_length (f : Cell → Except Unit Cell) (cells vals : List Cell)
    (h : castColumn f cells = .ok vals) : vals.length = cells.length := by
  induction cells generalizing vals with
  | nil =>
    have h2 : vals = [] := (Except.ok.inj h).symm
    subst h2
    rfl
  | cons x xs ih =>
    unfold castColumn at h
    cases hf : f x with
    | error e =>
      rw [hf] at h
      simp at h
    | ok v =>
      rw [hf] at h
      cases hrec : castColumn f xs with
      | error e =>
        rw [hrec] at h
        simp at h
      | ok vs =>
        rw [hrec] at h
        have h2 : vals = v :: vs := (Except.ok.inj h).symm
        subst h2
        simpa using ih vs hrec

theorem zipset_getD_self (rows : List (List Cell)) (vals : List Cell) (i : Nat)
    (hlt : ∀ r ∈ rows, i < r.length) (hlen : vals.length = rows.length) :
    ((rows.zip vals).map (fun p => p.1.set i p.2)).map (fun r => cellIdx r i) = vals := by
  induction rows generalizing vals with
  | nil =>
    cases vals with
    | nil => rfl
    | cons v vs => simp at hlen
  | cons r rs ih =>
    cases vals with
    | nil => simp at hlen
    | cons v vs =>
      simp only [List.zip_cons_cons, List.map_cons, List.cons.injEq]
      refine ⟨?_, ?_⟩
      · exact getD_set_self r i v Cell.na (hlt r (by simp))
      · exact ih vs (fun r2 hr2 => hlt r2 (by simp [hr2])) (by simpa using hlen)

theorem zipset_getD_ne (rows : List (List Cell)) (vals : List Cell) {i j : Nat}
    (hij : j ≠ i) (hlen : vals.length = rows.length) :
    ((rows.zip vals).map (fun p => p.1.set i p.2)).map (fun r => cellIdx r j) =
      rows.map (fun r => cellIdx r j) := by
  induction rows generalizing vals with
  | nil =>
    cases vals with
    | nil => rfl
    | cons v vs => simp at hlen
  | cons r rs ih =>
    cases vals with
    | nil => simp at hlen
    | cons v vs =>
      simp only [List.zip_cons_cons, List.map_cons, List.cons.injEq]
      refine ⟨?_, ?_⟩
      · exact getD_set_ne r v Cell.na hij
      · exact ih vs (by simpa using hlen)

theorem setColAt_WF (df : DataFrame) (i : Nat) (vals : List Cell)
    (hwf : WF df) :
    WF (setColAt df i vals) := by
  intro r hr
  obtain ⟨p, hp, hpr⟩ := List.mem_map.mp hr
  have hp1 := (List.of_mem_zip hp).1
  rw [← hpr]
  simpa using hwf p.1 hp1

theorem colCells_setColAt_self (df : DataFrame) (c : String) (i : Nat)
    (vals : List Cell) (hi : colFindIdx df.cols c = some i)
    (hwf : WF df) (hlen : vals.length = df.rows.length) :
    colCells (setColAt df i vals) c = some vals := by
  unfold colCells setColAt
  simp only [hi, Option.map]
  congr 1
  refine zipset_getD_self df.rows vals i ?_ hlen
  intro r hr
  rw [hwf r hr]
  exact (colFindIdx_getD hi).2

theorem colCells_setColAt_ne (df : DataFrame) (c c2 : String) (i : Nat)
    (vals : List Cell) (hi : colFindIdx df.cols c = some i) (hne : c2 ≠ c)
    (hlen : vals.length = df.rows.length) :
    colCells (setColAt df i vals) c2 = colCells df c2 := by
  unfold colCells setColAt
  cases hci2 : colFindIdx df.cols c2 with
  | none => simp [hci2]
  | some j =>
    have hji : j ≠ i := by
      intro hji
      subst hji
      exact hne (colFindIdx_inj hci2 hi)
    simp only [hci2, Option.map, Option.some.injEq]
    exact zipset_getD_ne df.rows vals hji hlen

theorem countLevel_append (lv : LogLevel) (l l2 : List LogLevel) :
    countLevel lv (l ++ l2) = countLevel lv l + countLevel lv l2 :=
  List.count_append lv l l2

theorem failCount_congr (f : Cell → Except Unit Cell) (df1 df2 : DataFrame)
    (cols : List String) (h : ∀ c ∈ cols, colCells df1 c = colCells df2 c) :
    failCount f df1 cols = failCount f df2 cols := by
  unfold failCount
  induction cols with
  | nil => rfl
  | cons c cs ih =>
    simp only [List.countP_cons]
    rw [ih (fun c2 hc2 => h c2 (by simp [hc2]))]
    unfold colCastFails
    rw [h c (by simp)]

theorem astypeFold_spec (f : Cell → Except Unit Cell) (cols : List String) (st : CState)
    (hmem : ∀ c ∈ cols, c ∈ st.df.cols)
    (hnodup : cols.Nodup)
    (hwf : WF st.df) :
    isOk (astypeFold f st cols) = true ∧
    (stateOf (astypeFold f st cols)).df.cols = st.df.cols ∧
    (∀ c, c ∉ cols → colCells (stateOf (astypeFold f st cols)).df c = colCells st.df c) ∧
    (∀ c ∈ cols, colCells (stateOf (astypeFold f st cols)).df c =
       (colCells st.df c).map (castOr f)) ∧
    countLevel .error (stateOf (astypeFold f st cols)).log =
      countLevel .error st.log + failCount f st.df cols := by
  induction cols generalizing st with
  | nil =>
    refine ⟨rfl, rfl, fun c _ => rfl, by simp, ?_⟩
    show countLevel LogLevel.error st.log =
      countLevel LogLevel.error st.log + failCount f st.df []
    simp [failCount]
  | cons c cs ih =>
    have hc : c ∈ st.df.cols := hmem c (by simp)
    obtain ⟨i, hi⟩ := colFindIdx_of_mem hc
    have hcells : colCells st.df c =
        some (st.df.rows.map (fun r => cellIdx r i)) := by
      unfold colCells
      simp [hi, Option.map]
    have hnotin : c ∉ cs := (List.nodup_cons.mp hnodup).1
    have hnodup2 : cs.Nodup := (List.nodup_cons.mp hnodup).2
    cases hcast : castColumn f (st.df.rows.map (fun r => cellIdx r i)) with
    | ok vals =>
      have hlen : vals.length = st.df.rows.length := by
        have := castColumn_length f _ vals hcast
        simpa using this
      have hstage : astypeFold f st (c :: cs) =
          astypeFold f
            { st with log := st.log ++ [LogLevel.info],
                      df := setColAt st.df i vals } cs := by
        show (match colFindIdx st.df.cols c with
              | none =>
                Except.error ("KeyError", { st with log := st.log ++ [LogLevel.info] })
              | some i =>
                match castColumn f (st.df.rows.map (fun r => cellIdx r i)) with
                | .ok vals =>
                  astypeFold f
                    { st with log := st.log ++ [LogLevel.info],
                              df := setColAt st.df i vals } cs
                | .error _ =>
                  astypeFold f
                    { st with log := st.log ++ [LogLevel.info, LogLevel.error] }
                    cs) = _
        rw [hi]
        show (match castColumn f (st.df.rows.map (fun r => cellIdx r i)) with
              | .ok vals =>
                astypeFold f
                  { st with log := st.log ++ [LogLevel.info],
                            df := setColAt st.df i vals } cs
              | .error _ =>
                astypeFold f
                  { st with log := st.log ++ [LogLevel.info, LogLevel.error] }
                  cs) = _
        rw [hcast]
      have hcolsEq :
          ∀ c2 ∈ cs,
            colCells (setColAt st.df i vals) c2 = colCells st.df c2 := by
        intro c2 hc2
        refine colCells_setColAt_ne st.df c c2 i vals hi ?_ hlen
        intro hceq
        subst hceq
        exact hnotin hc2
      have hmem2 : ∀ c2 ∈ cs, c2 ∈ (setColAt st.df i vals).cols := by
        intro c2 hc2
        simpa [setColAt] using hmem c2 (by simp [hc2])
      have hwf2 : WF (setColAt st.df i vals) :=
        setColAt_WF st.df i vals hwf
      obtain ⟨ihok, ihcols, ihout, ihin, ihcount⟩ :=
        ih { st with log := st.log ++ [LogLevel.info], df := setColAt st.df i vals }
          hmem2 hnodup2 hwf2
      rw [hstage]
      refine ⟨ihok, ihcols, ?_, ?_, ?_⟩
      · intro c2 hc2
        have hne : c2 ≠ c := fun hceq => hc2 (by simp [hceq])
        have hns : c2 ∉ cs := fun hcs => hc2 (by simp [hcs])
        exact (ihout c2 hns).trans
          (colCells_setColAt_ne st.df c c2 i vals hi hne hlen)
      · intro c2 hc2
        cases List.mem_cons.mp hc2 with
        | inl hceq =>
          subst hceq
          refine (ihout c2 hnotin).trans ?_
          refine (colCells_setColAt_self st.df c2 i vals hi hwf hlen).trans ?_
          rw [hcells]
          simp [castOr, hcast]
        | inr hcs =>
          exact (ihin c2 hcs).trans (by rw [hcolsEq c2 hcs])
      · have hfc : failCount f (setColAt st.df i vals) cs = failCount f st.df cs :=
          failCount_congr f _ _ cs hcolsEq
        have hcnt : countLevel LogLevel.error (st.log ++ [LogLevel.info]) =
            countLevel LogLevel.error st.log := by
          rw [countLevel_append]
          rfl
        have hsucc : failCount f st.df (c :: cs) = failCount f st.df cs := by
          unfold failCount
          simp only [List.countP_cons]
          have hnofail : colCastFails f st.df c = false := by
            unfold colCastFails castFails
            rw [hcells]
            simp [hcast]
          simp [hnofail]
        rw [ihcount, hsucc]
        show countLevel LogLevel.error (st.log ++ [LogLevel.info]) +
          failCount f (setColAt st.df i vals) cs = _
        rw [hcnt, hfc]
    | error e =>
      have hstage : astypeFold f st (c :: cs) =
          astypeFold f
            { st with log := st.log ++ [LogLevel.info, LogLevel.error] } cs := by
        show (match colFindIdx st.df.cols c with
              | none =>
                Except.error ("KeyError", { st with log := st.log ++ [LogLevel.info] })
              | some i =>
                match castColumn f (st.df.rows.map (fun r => cellIdx r i)) with
                | .ok vals =>
                  astypeFold f
                    { st with log := st.log ++ [LogLevel.info],
                              df := setColAt st.df i vals } cs
                | .error _ =>
                  astypeFold f
                    { st with log := st.log ++ [LogLevel.info, LogLevel.error] }
                    cs) = _
        rw [hi]
        show (match castColumn f (st.df.rows.map (fun r => cellIdx r i)) with
              | .ok vals =>
                astypeFold f
                  { st with log := st.log ++ [LogLevel.info],
                            df := setColAt st.df i vals } cs
              | .error _ =>
                astypeFold f
                  { st with log := st.log ++ [LogLevel.info, LogLevel.error] }
                  cs) = _
        rw [hcast]
      have hmem2 : ∀ c2 ∈ cs, c2 ∈ st.df.cols := by
        intro c2 hc2
        exact hmem c2 (by simp [hc2])
      obtain ⟨ihok, ihcols, ihout, ihin, ihcount⟩ :=
        ih { st with log := st.log ++ [LogLevel.info, LogLevel.error] }
          hmem2 hnodup2 hwf
      rw [hstage]
      refine ⟨ihok, ihcols, ?_, ?_, ?_⟩
      · intro c2 hc2
        exact ihout c2 (fun hcs => hc2 (by simp [hcs]))
      · intro c2 hc2
        cases List.mem_cons.mp hc2 with
        | inl hceq =>
          subst hceq
          refine (ihout c2 hnotin).trans ?_
          show colCells st.df c2 = _
          rw [hcells]
          simp [castOr, hcast]
        | inr hcs =>
          exact ihin c2 hcs
      · have hcnt : countLevel LogLevel.error
            (st.log ++ [LogLevel.info, LogLevel.error]) =
            countLevel LogLevel.error st.log + 1 := by
          rw [countLevel_append]
          rfl
        have hfail : failCount f st.df (c :: cs) = failCount f st.df cs + 1 := by
          unfold failCount
          simp only [List.countP_cons]
          have hdoes : colCastFails f st.df c = true := by
            unfold colCastFails castFails
            rw [hcells]
            simp [hcast]
          simp [hdoes]
        rw [ihcount, hfail]
        show countLevel LogLevel.error
          (st.log ++ [LogLevel.info, LogLevel.error]) + failCount f st.df cs = _
        rw [hcnt]
        omega

/-- Claim C6: in the explicit-cast stage with a truthy clean_types, a
non-empty duplicate-free column list all of whose names exist in a
well-formed table, the stage returns without an uncaught exception (so
the remaining categories still run); every listed column ends up holding
its cast cells when its cast succeeds and exactly its original cells when
its cast raises (the failing column is left untouched); and the number of
error-level log messages grows by exactly the number of failing columns
(so each failure is logged). -/
theorem astype_cast_failure_isolated (tstr : String) (cfg : Config) (st : CState)
    (cols : List String)
    (hchoice : colsChoiceOf cfg tstr = some (some cols))
    (hct : truthyB cfg.clean_types = true)
    (hne : cols ≠ [])
    (hnodup : cols.Nodup)
    (hmem : ∀ c ∈ cols, c ∈ st.df.cols)
    (hwf : WF st.df) :
    isOk (run_astype_conversion tstr cfg st) = true ∧
    (stateOf (run_astype_conversion tstr cfg st)).df.cols = st.df.cols ∧
    (∀ c ∈ cols, colCells (stateOf (run_astype_conversion tstr cfg st)).df c =
       (colCells st.df c).map (castOr (castCellOf tstr))) ∧
    countLevel .error (stateOf (run_astype_conversion tstr cfg st)).log =
      countLevel .error st.log + failCount (castCellOf tstr) st.df cols := by
  have hstage : run_astype_conversion tstr cfg st =
      astypeFold (castCellOf tstr) { st with df_changed := true } cols := by
    unfold run_astype_conversion
    rw [hchoice]
    simp [hct, truthyL_some_ne_nil hne]
  obtain ⟨hok, hcols, _hout, hin, hcount⟩ :=
    astypeFold_spec (castCellOf tstr) cols { st with df_changed := true }
      hmem hnodup hwf
  rw [hstage]
  exact ⟨hok, hcols, hin, hcount⟩

/-- Witness for C6: the failing int cast leaves column A holding exactly
its original string values. -/
theorem astype_cast_failure_isolated_witness :
    colCells (stateOf (run_astype_conversion "int" cfgIntCast stBadInt)).df "A" =
      (colCells stBadInt.df "A").map (castOr (castCellOf "int")) :=
  (astype_cast_failure_isolated "int" cfgIntCast stBadInt ["A"] rfl rfl
      (by decide) (by decide) (by decide)
      (by unfold WF; decide)).2.2.1 "A" (by decide)

end CSVClean
